import Mathlib

/-!
Shallow embedding of `daily_tao_to_discord.py`.

The script fetches TAO income for a list of coldkeys from the Taostats
accounting API, builds a summary message, and posts it to a Discord
webhook.  We embed the pure data flow:

* machine floats are modelled as rationals (`ℚ`);
* the per-coldkey HTTP GET + JSON decode (`urllib.request.urlopen` +
  `json.load`) is an oracle `api : String → Except String Payload`, where
  `Except.error` stands for a raised transport/HTTP error;
* the Discord POST (`post_to_discord`) is an oracle
  `post : String → Except String Nat` returning the HTTP status code on
  success and `Except.error` on a raised delivery error;
* Python exceptions are `Except.error` carrying the exception's string
  rendering;
* `datetime.now` is not evaluated: the strings produced by `_date_range`
  (`start_date.strftime("%Y-%m-%d")`, `end_date.strftime("%Y-%m-%d")`,
  where `end_date.isoformat()` is the same string as the latter) enter as
  fields of the configuration record `Ctx`.
-/

namespace DailyTao

/-- The value found under the `"income"` key of the first data row,
as seen by `float(income_raw)`:
`num q` is a value that `float` converts to the real number `q`
(a JSON int or float, or a numeric string); `bad` is a value on which
`float` raises `TypeError` or `ValueError`. -/
inductive IncomeVal where
  | num (q : ℚ)
  | bad
deriving DecidableEq

/-- One element of the payload's `data` array; only the `"income"` field is
read by the script.  `income = none` models both an absent key and a JSON
`null` (either way `record.get("income") is None`). -/
structure ApiRow where
  income : Option IncomeVal
deriving DecidableEq

/-- The decoded JSON payload of one accounting-API response.
`payload.get("data") or []` makes an absent, null or empty `data` field
indistinguishable from the empty list, so we store the list directly. -/
structure Payload where
  data : List ApiRow
deriving DecidableEq

/-- `MinerEarning` dataclass: `coldkey: str`, `amount_tao: float`. -/
structure MinerEarning where
  coldkey : String
  amount_tao : ℚ
deriving DecidableEq

/-- Environment-sourced configuration together with the date strings that
`_date_range` derives from "now" and `LOOKBACK_DAYS`. -/
structure Ctx where
  minerAddresses : List String
  lookbackDays : Int
  network : String
  dateStartStr : String
  dateEndStr : String
deriving DecidableEq

/-! ### Decimal rendering (Python `str(int)` and `format(x, ".6f")`) -/

/-- Base-10 digits of a natural number, most significant first, as
characters (`'0'`–`'9'`); embedding of Python's `str` on a non-negative
`int`. -/
def natDigits (n : Nat) : List Char :=
  if h : n < 10 then [Char.ofNat (48 + n)]
  else natDigits (n / 10) ++ [Char.ofNat (48 + n % 10)]
decreasing_by
  exact Nat.div_lt_self (by omega) (by omega)

/-- Python `str` on a non-negative integer. -/
def natStr (n : Nat) : String :=
  String.mk (natDigits n)

/-- Zero-pad the decimal rendering of `n < 10^6` to exactly six digits
(the fractional part of a `".6f"` rendering). -/
def pad6 (n : Nat) : String :=
  String.mk (List.replicate (6 - (natDigits n).length) '0' ++ natDigits n)

/-- Round a rational to the nearest integer, ties to even — the rounding
applied by CPython's fixed-point float formatting. -/
def roundHalfEven (q : ℚ) : ℤ :=
  let f : ℤ := ⌊q⌋
  let frac : ℚ := q - f
  if frac < 1/2 then f
  else if 1/2 < frac then f + 1
  else if f % 2 = 0 then f else f + 1

/-- Embedding of Python `f"{x:.6f}"`: the value scaled by `10^6`, rounded
half-to-even, rendered with six fractional digits; a negative value keeps
its sign even when it rounds to zero. -/
def fmtFixed6 (q : ℚ) : String :=
  let n : ℤ := roundHalfEven (q * 1000000)
  let sign : String := if n < 0 ∨ (n = 0 ∧ q < 0) then "-" else ""
  let m : Nat := n.natAbs
  sign ++ natStr (m / 1000000) ++ "." ++ pad6 (m % 1000000)

/-! ### `fetch_earnings` -/

/-- The body of the per-coldkey loop of `fetch_earnings` after a successful
request: `data = payload.get("data") or []`; `continue` on empty `data`;
`record = data[0]`; `continue` when `record.get("income")` is `None`;
`income_tao = float(income_raw) / 1e9`, `continue` when the conversion
raises; otherwise append `MinerEarning(coldkey, income_tao)`.
Returns the (zero- or one-element) list of records the coldkey appends. -/
def processAccount (payload : Payload) (coldkey : String) : List MinerEarning :=
  match payload.data with
  | [] => []
  | record :: _ =>
    match record.income with
    | none => []
    | some IncomeVal.bad => []
    | some (IncomeVal.num q) => [⟨coldkey, q / 1000000000⟩]

/-- The `for coldkey in MINER_ADDRESSES` loop of `fetch_earnings`, carrying
the `earnings` accumulator.  An `urllib.error.HTTPError` from the request is
re-raised as `RuntimeError(f"Failed to fetch earnings for ... ")`, aborting
the loop. -/
def fetchLoop (api : String → Except String Payload)
    (acc : List MinerEarning) : List String → Except String (List MinerEarning)
  | [] => Except.ok acc
  | coldkey :: rest =>
    match api coldkey with
    | Except.error e =>
        Except.error ("Failed to fetch earnings for " ++ coldkey ++ ": " ++ e)
    | Except.ok payload =>
        fetchLoop api (acc ++ processAccount payload coldkey) rest

/-- `DailyTaoReporter.fetch_earnings`. -/
def fetch_earnings (c : Ctx) (api : String → Except String Payload) :
    Except String (List MinerEarning) :=
  fetchLoop api [] c.minerAddresses

/-! ### `build_message` -/

/-- The `header` local of `build_message`: single-day phrasing naming only
the end date when `LOOKBACK_DAYS == 1`, otherwise start → end. -/
def headerStr (c : Ctx) : String :=
  if c.lookbackDays = 1 then
    "📊 Daily TAO Earnings — " ++ c.dateEndStr
  else
    "📊 TAO Earnings — " ++ c.dateStartStr ++ " → " ++ c.dateEndStr

/-- Embedding of Python's `"\n".join`. -/
def joinNL : List String → String
  | [] => ""
  | [l] => l
  | l :: l' :: ls => l ++ "\n" ++ joinNL (l' :: ls)

/-- `DailyTaoReporter.build_message`: on an empty record list, a three-line
"no data" message; otherwise header, network line, blank line, one bulleted
line per record with the amount in `".6f"` format, a blank line and a total
line accumulated by the loop (`total += entry.amount_tao`). -/
def build_message (c : Ctx) (earnings : List MinerEarning) : String :=
  let header := headerStr c
  if earnings.isEmpty then
    header ++ "\nNetwork: **" ++ c.network ++
      "**\nNo earnings data available for the configured coldkeys in this period."
  else
    let init : ℚ × List String := (0, [header, "Network: **" ++ c.network ++ "**", ""])
    let st := earnings.foldl
      (fun (st : ℚ × List String) entry =>
        (st.1 + entry.amount_tao,
         st.2 ++ ["• `" ++ entry.coldkey ++ "`: **" ++ fmtFixed6 entry.amount_tao ++ " TAO**"]))
      init
    joinNL (st.2 ++
      ["", "**Total:** " ++ fmtFixed6 st.1 ++ " TAO across " ++
        natStr earnings.length ++ " coldkey(s)"])

/-! ### `run` -/

/-- The fallback message built by `run` when `fetch_earnings` or
`build_message` raises: `"⚠️ Daily TAO Earnings — data unavailable\nReason: {exc}"`. -/
def fallbackMsg (e : String) : String :=
  "⚠️ Daily TAO Earnings — data unavailable\nReason: " ++ e

/-- `DailyTaoReporter.run`: fetch and build inside one `try`, any exception
replaced by the fallback message; the (real or fallback) message is posted;
a raised delivery error yields exit code 1, otherwise 0.  Returns the exit
code together with the message content handed to `post_to_discord`. -/
def run (c : Ctx) (api : String → Except String Payload)
    (post : String → Except String Nat) : Nat × String :=
  let message :=
    match fetch_earnings c api with
    | Except.ok earnings => build_message c earnings
    | Except.error e => fallbackMsg e
  match post message with
  | Except.ok _ => (0, message)
  | Except.error _ => (1, message)

/-! ### Statement-side helpers: the individual lines of a report message -/

/-- The `Network: **…**` line of the report. -/
def networkLine (c : Ctx) : String :=
  "Network: **" ++ c.network ++ "**"

/-- The literal "no data" sentence of the empty report. -/
def noDataLine : String :=
  "No earnings data available for the configured coldkeys in this period."

/-- The bulleted per-record line of the report. -/
def entryLine (e : MinerEarning) : String :=
  "• `" ++ e.coldkey ++ "`: **" ++ fmtFixed6 e.amount_tao ++ " TAO**"

/-- The trailing total line of a non-empty report. -/
def totalLine (es : List MinerEarning) : String :=
  "**Total:** " ++ fmtFixed6 ((es.map MinerEarning.amount_tao).sum) ++
    " TAO across " ++ natStr es.length ++ " coldkey(s)"

/-- A line is bulleted when it begins with the bullet marker `• `. -/
def isBulleted (l : String) : Bool :=
  decide (l.data.take 2 = ['•', ' '])

/-- A line is a total line when it begins with `**Total:**`. -/
def isTotalLine (l : String) : Bool :=
  decide (l.data.take 10 = ("**Total:**" : String).data)

/-- Split a character list at every newline; inverse of joining with `'\n'`. -/
def splitNL : List Char → List (List Char)
  | [] => [[]]
  | ch :: cs =>
    if ch = '\n' then [] :: splitNL cs
    else
      match splitNL cs with
      | [] => [[ch]]
      | g :: gs => (ch :: g) :: gs

/-- The lines of a string, in the sense of splitting at every `'\n'`. -/
def strLines (s : String) : List String :=
  (splitNL s.data).map String.mk

/-! ### Concrete inputs for witnesses -/

def cW1 : Ctx := ⟨["ck1", "ck2"], 1, "finney", "2026-10-11", "2026-10-12"⟩

def cW7 : Ctx := ⟨["ck1", "ck2"], 7, "finney", "2026-10-05", "2026-10-12"⟩

def esW : List MinerEarning := [⟨"ck1", 12345/10000⟩, ⟨"ck2", 5678/10000⟩]

def apiW : String → Except String Payload := fun ck =>
  if ck = "ck1" then Except.ok ⟨[⟨some (IncomeVal.num 1234500000)⟩]⟩
  else if ck = "ck2" then Except.ok ⟨[⟨some (IncomeVal.num 567800000)⟩]⟩
  else Except.ok ⟨[]⟩

def apiFailW : String → Except String Payload := fun _ =>
  Except.error "HTTP Error 500: Internal Server Error"

def apiMixW : String → Except String Payload := fun ck =>
  if ck = "ck2" then Except.error "timed out"
  else Except.ok ⟨[⟨some (IncomeVal.num 1234500000)⟩]⟩

def apiSkipW : String → Except String Payload := fun ck =>
  if ck = "ck1" then Except.ok ⟨[⟨some (IncomeVal.num 1234500000)⟩]⟩
  else Except.ok ⟨[]⟩

def apiZeroW : String → Except String Payload := fun ck =>
  if ck = "ck2" then Except.ok ⟨[⟨some (IncomeVal.num 0)⟩]⟩
  else Except.ok ⟨[]⟩

def postOkW : String → Except String Nat := fun _ => Except.ok 204

lemma splitNL_no_nl (l : List Char) (h : '\n' ∉ l) : splitNL l = [l] := by
  induction l with
  | nil => rfl
  | cons ch cs ih =>
    have hch : ch ≠ '\n' := fun he => h (he ▸ List.mem_cons_self _ _)
    have hcs : '\n' ∉ cs := fun hm => h (List.mem_cons_of_mem _ hm)
    simp only [splitNL, if_neg hch, ih hcs]

lemma splitNL_append (l₁ l₂ : List Char) (h : '\n' ∉ l₁) :
    splitNL (l₁ ++ '\n' :: l₂) = l₁ :: splitNL l₂ := by
  induction l₁ with
  | nil => simp [splitNL]
  | cons ch cs ih =>
    have hch : ch ≠ '\n' := fun he => h (he ▸ List.mem_cons_self _ _)
    have hcs : '\n' ∉ cs := fun hm => h (List.mem_cons_of_mem _ hm)
    simp only [List.cons_append, splitNL, if_neg hch]
    rw [show cs.append ('\n' :: l₂) = cs ++ '\n' :: l₂ from rfl, ih hcs]

lemma strLines_joinNL (L : List String) (hne : L ≠ []) (hnl : ∀ l ∈ L, '\n' ∉ l.data) :
    strLines (joinNL L) = L := by
  induction L with
  | nil => exact absurd rfl hne
  | cons l L ih =>
    cases L with
    | nil =>
      have h := splitNL_no_nl l.data (hnl l (by simp))
      simp [strLines, joinNL, h]
    | cons l' ls =>
      have hdata : (joinNL (l :: l' :: ls)).data = l.data ++ '\n' :: (joinNL (l' :: ls)).data := by
        show ((l ++ "\n") ++ joinNL (l' :: ls)).data = _
        rw [String.data_append, String.data_append]
        simp
      have hsplit := splitNL_append l.data (joinNL (l' :: ls)).data (hnl l (by simp))
      have ihh := ih (by simp) (fun x hx => hnl x (List.mem_cons_of_mem _ hx))
      unfold strLines at ihh ⊢
      rw [hdata, hsplit, List.map_cons]
      rw [show String.mk l.data = l from rfl, ihh]

lemma natDigits_mem (n : Nat) : ∀ ch ∈ natDigits n, ∃ d, d < 10 ∧ ch = Char.ofNat (48 + d) := by
  induction n using Nat.strong_induction_on with
  | _ n ih =>
    intro ch hch
    rw [natDigits] at hch
    split at hch
    · next h =>
      simp only [List.mem_singleton] at hch
      exact ⟨n, h, hch⟩
    · next h =>
      rcases List.mem_append.1 hch with h1 | h2
      · exact ih (n / 10) (Nat.div_lt_self (by omega) (by omega)) ch h1
      · simp only [List.mem_singleton] at h2
        exact ⟨n % 10, Nat.mod_lt _ (by omega), h2⟩

lemma digit_ne_nl {d : Nat} (hd : d < 10) : Char.ofNat (48 + d) ≠ '\n' := by
  interval_cases d <;> decide

lemma natDigits_no_nl (n : Nat) : '\n' ∉ natDigits n := by
  intro h
  obtain ⟨d, hd, he⟩ := natDigits_mem n '\n' h
  exact digit_ne_nl hd he.symm

lemma natStr_no_nl (n : Nat) : '\n' ∉ (natStr n).data :=
  natDigits_no_nl n

lemma pad6_no_nl (n : Nat) : '\n' ∉ (pad6 n).data := by
  intro h
  rcases List.mem_append.1 h with h1 | h2
  · exact absurd (List.eq_of_mem_replicate h1) (by decide)
  · exact natDigits_no_nl n h2

lemma fmtFixed6_no_nl (q : ℚ) : '\n' ∉ (fmtFixed6 q).data := by
  intro h
  simp only [fmtFixed6, String.data_append, List.mem_append] at h
  rcases h with ((hs | h1) | h2) | h3
  · split at hs <;> simp_all
  · exact natStr_no_nl _ h1
  · simp at h2
  · exact pad6_no_nl _ h3

lemma networkLine_no_nl (c : Ctx) (h : '\n' ∉ c.network.data) : '\n' ∉ (networkLine c).data := by
  intro hm
  simp only [networkLine, String.data_append, List.mem_append] at hm
  rcases hm with (h1 | h2) | h3
  · simp at h1
  · exact h h2
  · simp at h3

lemma entryLine_no_nl (e : MinerEarning) (h : '\n' ∉ e.coldkey.data) :
    '\n' ∉ (entryLine e).data := by
  intro hm
  simp only [entryLine, String.data_append, List.mem_append] at hm
  rcases hm with (((h1 | h2) | h3) | h4) | h5
  · simp at h1
  · exact h h2
  · simp at h3
  · exact fmtFixed6_no_nl _ h4
  · simp at h5

lemma totalLine_no_nl (es : List MinerEarning) : '\n' ∉ (totalLine es).data := by
  intro hm
  simp only [totalLine, String.data_append, List.mem_append] at hm
  rcases hm with (((h1 | h2) | h3) | h4) | h5
  · simp at h1
  · exact fmtFixed6_no_nl _ h2
  · simp at h3
  · exact natStr_no_nl _ h4
  · simp at h5

lemma build_foldl (es : List MinerEarning) : ∀ (q : ℚ) (L : List String),
    es.foldl (fun st entry => (st.1 + entry.amount_tao, st.2 ++ [entryLine entry])) (q, L) =
      (q + (es.map MinerEarning.amount_tao).sum, L ++ es.map entryLine) := by
  induction es with
  | nil => intro q L; simp
  | cons e es ih =>
    intro q L
    simp only [List.foldl_cons, List.map_cons, List.sum_cons]
    rw [ih]
    simp [add_assoc, List.append_assoc]

lemma build_message_eq (c : Ctx) (es : List MinerEarning) (h : es ≠ []) :
    build_message c es =
      joinNL ([headerStr c, networkLine c, ""] ++ es.map entryLine ++ ["", totalLine es]) := by
  have hne : es.isEmpty = false := by
    cases es with
    | nil => exact absurd rfl h
    | cons a l => rfl
  simp only [build_message, hne, Bool.false_eq_true, if_false]
  rw [show (fun (st : ℚ × List String) entry =>
      (st.1 + entry.amount_tao,
       st.2 ++ ["• `" ++ entry.coldkey ++ "`: **" ++ fmtFixed6 entry.amount_tao ++ " TAO**"]))
    = (fun (st : ℚ × List String) entry => (st.1 + entry.amount_tao, st.2 ++ [entryLine entry]))
    from rfl]
  rw [build_foldl]
  simp only [zero_add]
  rw [show ("Network: **" ++ c.network ++ "**") = networkLine c from rfl]
  rw [show ("**Total:** " ++ fmtFixed6 ((es.map MinerEarning.amount_tao).sum) ++
      " TAO across " ++ natStr es.length ++ " coldkey(s)") = totalLine es from rfl]

lemma build_message_empty_eq (c : Ctx) :
    build_message c [] = joinNL [headerStr c, networkLine c, noDataLine] := by
  show headerStr c ++ "\nNetwork: **" ++ c.network ++
      "**\nNo earnings data available for the configured coldkeys in this period." = _
  rw [show ("\nNetwork: **" : String) = "\n" ++ "Network: **" from rfl]
  rw [show ("**\nNo earnings data available for the configured coldkeys in this period." : String)
    = "**" ++ ("\n" ++ noDataLine) from rfl]
  show _ = headerStr c ++ "\n" ++ (networkLine c ++ "\n" ++ noDataLine)
  simp only [networkLine, String.append_assoc]

lemma processAccount_of_nil (p : Payload) (ck : String) (hd : p.data = []) :
    processAccount p ck = [] := by
  simp [processAccount, hd]

lemma processAccount_of_none (p : Payload) (ck : String) (row : ApiRow) (rest : List ApiRow)
    (hd : p.data = row :: rest) (hrow : row.income = none) :
    processAccount p ck = [] := by
  simp [processAccount, hd, hrow]

lemma processAccount_of_bad (p : Payload) (ck : String) (row : ApiRow) (rest : List ApiRow)
    (hd : p.data = row :: rest) (hrow : row.income = some IncomeVal.bad) :
    processAccount p ck = [] := by
  simp [processAccount, hd, hrow]

lemma processAccount_of_num (p : Payload) (ck : String) (row : ApiRow) (rest : List ApiRow)
    (q : ℚ) (hd : p.data = row :: rest) (hrow : row.income = some (IncomeVal.num q)) :
    processAccount p ck = [⟨ck, q / 1000000000⟩] := by
  simp [processAccount, hd, hrow]

lemma processAccount_coldkey (p : Payload) (ck : String) (r : MinerEarning)
    (h : r ∈ processAccount p ck) : r.coldkey = ck := by
  rcases hd : p.data with _ | ⟨row, rest⟩
  · rw [processAccount_of_nil p ck hd] at h
    simp at h
  · rcases hrow : row.income with _ | v
    · rw [processAccount_of_none p ck row rest hd hrow] at h
      simp at h
    · rcases v with q | _
      · rw [processAccount_of_num p ck row rest q hd hrow] at h
        simp only [List.mem_singleton] at h
        rw [h]
      · rw [processAccount_of_bad p ck row rest hd hrow] at h
        simp at h

lemma processAccount_inv (p : Payload) (ck : String) (r : MinerEarning)
    (h : r ∈ processAccount p ck) :
    ∃ row rest q, p.data = row :: rest ∧ row.income = some (IncomeVal.num q) ∧
      r = ⟨ck, q / 1000000000⟩ := by
  rcases hd : p.data with _ | ⟨row, rest⟩
  · rw [processAccount_of_nil p ck hd] at h
    simp at h
  · rcases hrow : row.income with _ | v
    · rw [processAccount_of_none p ck row rest hd hrow] at h
      simp at h
    · rcases v with q | _
      · rw [processAccount_of_num p ck row rest q hd hrow] at h
        simp only [List.mem_singleton] at h
        exact ⟨row, rest, q, by simp [hd], hrow, h⟩
      · rw [processAccount_of_bad p ck row rest hd hrow] at h
        simp at h

lemma fetchLoop_mem (api : String → Except String Payload) :
    ∀ (addrs : List String) (acc res : List MinerEarning),
    fetchLoop api acc addrs = Except.ok res → ∀ r ∈ res,
    r ∈ acc ∨ ∃ ck p, ck ∈ addrs ∧ api ck = Except.ok p ∧ r ∈ processAccount p ck := by
  intro addrs
  induction addrs with
  | nil =>
    intro acc res h r hr
    simp only [fetchLoop, Except.ok.injEq] at h
    exact Or.inl (h ▸ hr)
  | cons ck rest ih =>
    intro acc res h r hr
    simp only [fetchLoop] at h
    rcases hapi : api ck with e | p
    · rw [hapi] at h
      exact absurd h (by simp)
    · rw [hapi] at h
      rcases ih (acc ++ processAccount p ck) res h r hr with hin | ⟨ck', p', hm, ha, hp⟩
      · rcases List.mem_append.1 hin with h1 | h2
        · exact Or.inl h1
        · exact Or.inr ⟨ck, p, List.mem_cons_self _ _, hapi, h2⟩
      · exact Or.inr ⟨ck', p', List.mem_cons_of_mem _ hm, ha, hp⟩

lemma fetchLoop_forward (api : String → Except String Payload) :
    ∀ (addrs : List String) (acc res : List MinerEarning),
    fetchLoop api acc addrs = Except.ok res →
    (∀ r ∈ acc, r ∈ res) ∧
    (∀ ck ∈ addrs, ∀ p, api ck = Except.ok p → ∀ r ∈ processAccount p ck, r ∈ res) := by
  intro addrs
  induction addrs with
  | nil =>
    intro acc res h
    simp only [fetchLoop, Except.ok.injEq] at h
    exact ⟨fun r hr => h ▸ hr, fun ck hck => absurd hck (List.not_mem_nil _)⟩
  | cons ck rest ih =>
    intro acc res h
    simp only [fetchLoop] at h
    rcases hapi : api ck with e | p
    · rw [hapi] at h
      exact absurd h (by simp)
    · rw [hapi] at h
      obtain ⟨hacc, hrest⟩ := ih (acc ++ processAccount p ck) res h
      refine ⟨fun r hr => hacc r (List.mem_append.2 (Or.inl hr)), ?_⟩
      intro ck' hck' p' hp' r hr
      rcases List.mem_cons.1 hck' with rfl | hm
      · rw [hapi] at hp'
        cases hp'
        exact hacc r (List.mem_append.2 (Or.inr hr))
      · exact hrest ck' hm p' hp' r hr

lemma fetchLoop_error (api : String → Except String Payload) :
    ∀ (addrs : List String) (acc : List MinerEarning) (ck : String) (e : String),
    ck ∈ addrs → api ck = Except.error e →
    ∃ msg, fetchLoop api acc addrs = Except.error msg := by
  intro addrs
  induction addrs with
  | nil =>
    intro acc ck e hm
    exact absurd hm (List.not_mem_nil _)
  | cons ck0 rest ih =>
    intro acc ck e hm he
    rcases hapi : api ck0 with e0 | p
    · exact ⟨"Failed to fetch earnings for " ++ ck0 ++ ": " ++ e0, by
        simp only [fetchLoop, hapi]⟩
    · rcases List.mem_cons.1 hm with rfl | hmem
      · rw [hapi] at he
        exact absurd he (by simp)
      · obtain ⟨msg, hmsg⟩ := ih (acc ++ processAccount p ck0) ck e hmem he
        exact ⟨msg, by simp only [fetchLoop, hapi]; exact hmsg⟩

lemma fetchLoop_ok (api : String → Except String Payload) :
    ∀ (addrs : List String) (acc : List MinerEarning),
    (∀ a ∈ addrs, ∃ q, api a = Except.ok q) →
    ∃ res, fetchLoop api acc addrs = Except.ok res := by
  intro addrs
  induction addrs with
  | nil =>
    intro acc _
    exact ⟨acc, rfl⟩
  | cons ck rest ih =>
    intro acc hall
    obtain ⟨p, hp⟩ := hall ck (List.mem_cons_self _ _)
    obtain ⟨res, hres⟩ := ih (acc ++ processAccount p ck)
      (fun a ha => hall a (List.mem_cons_of_mem _ ha))
    exact ⟨res, by simp only [fetchLoop, hp]; exact hres⟩

lemma fetchLoop_sublist (api : String → Except String Payload) :
    ∀ (addrs : List String) (acc res : List MinerEarning),
    fetchLoop api acc addrs = Except.ok res →
    ∃ tail, res = acc ++ tail ∧ List.Sublist (tail.map MinerEarning.coldkey) addrs := by
  intro addrs
  induction addrs with
  | nil =>
    intro acc res h
    simp only [fetchLoop, Except.ok.injEq] at h
    exact ⟨[], by simp [h.symm]⟩
  | cons ck rest ih =>
    intro acc res h
    simp only [fetchLoop] at h
    rcases hapi : api ck with e | p
    · rw [hapi] at h
      exact absurd h (by simp)
    · rw [hapi] at h
      obtain ⟨tail, hres, hsub⟩ := ih (acc ++ processAccount p ck) res h
      refine ⟨processAccount p ck ++ tail, by rw [hres, List.append_assoc], ?_⟩
      rw [List.map_append]
      rcases hd : p.data with _ | ⟨row, rrest⟩
      · rw [processAccount_of_nil p ck hd]
        exact List.Sublist.cons _ hsub
      · rcases hrow : row.income with _ | v
        · rw [processAccount_of_none p ck row rrest hd hrow]
          exact List.Sublist.cons _ hsub
        · rcases v with q | _
          · rw [processAccount_of_num p ck row rrest q hd hrow]
            exact List.Sublist.cons₂ _ hsub
          · rw [processAccount_of_bad p ck row rrest hd hrow]
            exact List.Sublist.cons _ hsub

lemma take_data_append (s t : String) (n : Nat) (h : n ≤ s.data.length) :
    (s ++ t).data.take n = s.data.take n := by
  rw [String.data_append, List.take_append_eq_append_take,
    Nat.sub_eq_zero_iff_le.2 h, List.take_zero, List.append_nil]

lemma le_data_length_append (s t : String) (n : Nat) (h : n ≤ s.data.length) :
    n ≤ (s ++ t).data.length := by
  rw [String.data_append, List.length_append]
  omega

lemma isBulleted_headerStr (c : Ctx) : isBulleted (headerStr c) = false := by
  simp only [isBulleted, headerStr, decide_eq_false_iff_not]
  split
  · rw [take_data_append _ _ 2 (by decide)]
    decide
  · rw [take_data_append _ _ 2 (le_data_length_append _ _ 2 (le_data_length_append _ _ 2 (by decide))),
      take_data_append _ _ 2 (le_data_length_append _ _ 2 (by decide)),
      take_data_append _ _ 2 (by decide)]
    decide

lemma isBulleted_networkLine (c : Ctx) : isBulleted (networkLine c) = false := by
  simp only [isBulleted, networkLine, decide_eq_false_iff_not]
  rw [take_data_append _ _ 2 (le_data_length_append _ _ 2 (by decide)),
    take_data_append _ _ 2 (by decide)]
  decide

lemma isBulleted_blank : isBulleted "" = false := by decide

lemma isBulleted_noDataLine : isBulleted noDataLine = false := by decide

lemma isBulleted_totalLine (es : List MinerEarning) : isBulleted (totalLine es) = false := by
  simp only [isBulleted, totalLine, decide_eq_false_iff_not]
  rw [take_data_append _ _ 2 (le_data_length_append _ _ 2 (le_data_length_append _ _ 2
      (le_data_length_append _ _ 2 (by decide)))),
    take_data_append _ _ 2 (le_data_length_append _ _ 2 (le_data_length_append _ _ 2 (by decide))),
    take_data_append _ _ 2 (le_data_length_append _ _ 2 (by decide)),
    take_data_append _ _ 2 (by decide)]
  decide

lemma isBulleted_entryLine (e : MinerEarning) : isBulleted (entryLine e) = true := by
  simp only [isBulleted, entryLine, decide_eq_true_eq]
  rw [take_data_append _ _ 2 (le_data_length_append _ _ 2 (le_data_length_append _ _ 2
      (le_data_length_append _ _ 2 (by decide)))),
    take_data_append _ _ 2 (le_data_length_append _ _ 2 (le_data_length_append _ _ 2 (by decide))),
    take_data_append _ _ 2 (le_data_length_append _ _ 2 (by decide)),
    take_data_append _ _ 2 (by decide)]
  decide

lemma isTotalLine_headerStr (c : Ctx) : isTotalLine (headerStr c) = false := by
  simp only [isTotalLine, headerStr, decide_eq_false_iff_not]
  split
  · rw [take_data_append _ _ 10 (by decide)]
    decide
  · rw [take_data_append _ _ 10 (le_data_length_append _ _ 10 (le_data_length_append _ _ 10 (by decide))),
      take_data_append _ _ 10 (le_data_length_append _ _ 10 (by decide)),
      take_data_append _ _ 10 (by decide)]
    decide

lemma isTotalLine_networkLine (c : Ctx) : isTotalLine (networkLine c) = false := by
  simp only [isTotalLine, networkLine, decide_eq_false_iff_not]
  rw [take_data_append _ _ 10 (le_data_length_append _ _ 10 (by decide)),
    take_data_append _ _ 10 (by decide)]
  decide

lemma isTotalLine_noDataLine : isTotalLine noDataLine = false := by decide

lemma run_snd (c : Ctx) (api : String → Except String Payload)
    (post : String → Except String Nat) :
    (run c api post).2 =
      (match fetch_earnings c api with
       | Except.ok es => build_message c es
       | Except.error e => fallbackMsg e) := by
  simp only [run]
  generalize (match fetch_earnings c api with
    | Except.ok es => build_message c es
    | Except.error e => fallbackMsg e) = m
  cases post m <;> rfl

lemma run_fst_cases (c : Ctx) (api : String → Except String Payload)
    (post : String → Except String Nat) :
    ((post ((run c api post).2)).isOk = true ∧ (run c api post).1 = 0) ∨
    ((post ((run c api post).2)).isOk = false ∧ (run c api post).1 = 1) := by
  simp only [run]
  generalize (match fetch_earnings c api with
    | Except.ok es => build_message c es
    | Except.error e => fallbackMsg e) = m
  cases hp : post m
  · right
    simp [hp, Except.isOk, Except.toBool]
  · left
    simp [hp, Except.isOk, Except.toBool]

/-- C1: any error raised while fetching or building is replaced by the
fallback message carrying the error's description, which is what reaches
the notifier; the run exits 0 exactly when delivery of the (real or
fallback) message succeeds and 1 exactly when it fails. -/
theorem run_fallback_and_exit_code (c : Ctx) (api : String → Except String Payload)
    (post : String → Except String Nat) :
    (∀ e, fetch_earnings c api = Except.error e →
      (run c api post).2 = fallbackMsg e) ∧
    (∀ es, fetch_earnings c api = Except.ok es →
      (run c api post).2 = build_message c es) ∧
    ((run c api post).1 = 0 ↔ (post ((run c api post).2)).isOk = true) ∧
    ((run c api post).1 = 1 ↔ (post ((run c api post).2)).isOk = false) := by
  refine ⟨?_, ?_, ?_, ?_⟩
  · intro e he
    rw [run_snd, he]
  · intro es hes
    rw [run_snd, hes]
  · rcases run_fst_cases c api post with ⟨hok, h0⟩ | ⟨hko, h1⟩
    · simp [hok, h0]
    · simp [hko, h1]
  · rcases run_fst_cases c api post with ⟨hok, h0⟩ | ⟨hko, h1⟩
    · simp [hok, h0]
    · simp [hko, h1]

theorem run_fallback_and_exit_code_witness :
    (run cW1 apiFailW postOkW).2 =
      fallbackMsg "Failed to fetch earnings for ck1: HTTP Error 500: Internal Server Error" ∧
    (run cW1 apiFailW postOkW).1 = 0 := by
  have h := run_fallback_and_exit_code cW1 apiFailW postOkW
  exact ⟨h.1 _ rfl, h.2.2.1.mpr rfl⟩

/-- C2: a transport/HTTP error for any account in the list makes the whole
fetch raise; no partial result list is returned. -/
theorem fetch_fail_fast (c : Ctx) (api : String → Except String Payload)
    (ck : String) (e : String)
    (hmem : ck ∈ c.minerAddresses) (he : api ck = Except.error e) :
    ∃ msg, fetch_earnings c api = Except.error msg :=
  fetchLoop_error api c.minerAddresses [] ck e hmem he

theorem fetch_fail_fast_witness :
    ∃ msg, fetch_earnings cW1 apiMixW = Except.error msg :=
  fetch_fail_fast cW1 apiMixW "ck2" "timed out" (by decide) rfl

/-- C3: an account whose response has no data rows, or whose first row has
an absent or non-numeric income, contributes no record and raises no
error: it never appears in a successful result, and an all-reachable run
still succeeds. -/
theorem fetch_skip_silent (c : Ctx) (api : String → Except String Payload)
    (ck : String) (p : Payload)
    (hok : api ck = Except.ok p)
    (hskip : p.data = [] ∨ ∃ row rest, p.data = row :: rest ∧
      (row.income = none ∨ row.income = some IncomeVal.bad)) :
    processAccount p ck = [] ∧
    (∀ res, fetch_earnings c api = Except.ok res → ∀ r ∈ res, r.coldkey ≠ ck) ∧
    ((∀ a ∈ c.minerAddresses, ∃ q, api a = Except.ok q) →
      ∃ res, fetch_earnings c api = Except.ok res) := by
  have hpa : processAccount p ck = [] := by
    rcases hskip with hd | ⟨row, rest, hd, hrow⟩
    · exact processAccount_of_nil p ck hd
    · rcases hrow with h1 | h2
      · exact processAccount_of_none p ck row rest hd h1
      · exact processAccount_of_bad p ck row rest hd h2
  refine ⟨hpa, ?_, fun hall => fetchLoop_ok api c.minerAddresses [] hall⟩
  intro res hres r hr hcoldkey
  rcases fetchLoop_mem api c.minerAddresses [] res hres r hr with h0 | ⟨ck', p', hm, ha, hp⟩
  · exact absurd h0 (List.not_mem_nil _)
  · have hck : ck' = ck := by rw [← processAccount_coldkey p' ck' r hp, hcoldkey]
    subst hck
    rw [hok] at ha
    cases ha
    rw [hpa] at hp
    exact absurd hp (List.not_mem_nil _)

theorem fetch_skip_silent_witness :
    processAccount ⟨[]⟩ "ck2" = [] ∧
    (∃ res, fetch_earnings cW1 apiSkipW = Except.ok res) := by
  have h := fetch_skip_silent cW1 apiSkipW "ck2" ⟨[]⟩ rfl (Or.inl rfl)
  refine ⟨h.1, h.2.2 ?_⟩
  intro a ha
  rcases (by simpa [cW1] using ha : a = "ck1" ∨ a = "ck2") with rfl | rfl
  · exact ⟨_, rfl⟩
  · exact ⟨_, rfl⟩

/-- C4: for a non-empty record list (with newline-free account ids and
configuration strings) the message splits into a header line, a network
line, a blank, exactly one bulleted line per record showing its account id
and amount in `".6f"` format, a blank, and a total line carrying the sum
of the amounts in `".6f"` format together with the record count. -/
theorem build_message_nonempty_lines (c : Ctx) (es : List MinerEarning)
    (hne : es ≠ [])
    (hh : '\n' ∉ (headerStr c).data)
    (hnet : '\n' ∉ c.network.data)
    (hck : ∀ e ∈ es, '\n' ∉ e.coldkey.data) :
    strLines (build_message c es) =
      [headerStr c, networkLine c, ""] ++ es.map entryLine ++ ["", totalLine es] ∧
    ((strLines (build_message c es)).filter isBulleted) = es.map entryLine ∧
    (∀ e ∈ es, entryLine e =
      "• `" ++ e.coldkey ++ "`: **" ++ fmtFixed6 e.amount_tao ++ " TAO**") ∧
    totalLine es = "**Total:** " ++ fmtFixed6 ((es.map MinerEarning.amount_tao).sum) ++
      " TAO across " ++ natStr es.length ++ " coldkey(s)" := by
  have hlist : ∀ l ∈ [headerStr c, networkLine c, ""] ++ es.map entryLine ++
      ["", totalLine es], '\n' ∉ l.data := by
    intro l hl
    rcases List.mem_append.1 hl with h1 | h2
    · rcases List.mem_append.1 h1 with h3 | h4
      · rcases (by simpa using h3 : l = headerStr c ∨ l = networkLine c ∨ l = "") with
          rfl | rfl | rfl
        · exact hh
        · exact networkLine_no_nl c hnet
        · simp
      · obtain ⟨e, he, rfl⟩ := List.mem_map.1 h4
        exact entryLine_no_nl e (hck e he)
    · rcases (by simpa using h2 : l = "" ∨ l = totalLine es) with rfl | rfl
      · simp
      · exact totalLine_no_nl es
  have hmain : strLines (build_message c es) =
      [headerStr c, networkLine c, ""] ++ es.map entryLine ++ ["", totalLine es] := by
    rw [build_message_eq c es hne]
    exact strLines_joinNL _ (by simp) hlist
  refine ⟨hmain, ?_, fun e _ => rfl, rfl⟩
  rw [hmain, List.filter_append, List.filter_append]
  have f1 : List.filter isBulleted [headerStr c, networkLine c, ""] = [] := by
    simp [List.filter_cons, isBulleted_headerStr c, isBulleted_networkLine c, isBulleted_blank]
  have f2 : List.filter isBulleted (es.map entryLine) = es.map entryLine := by
    refine List.filter_eq_self.2 ?_
    intro l hl
    obtain ⟨e, _, rfl⟩ := List.mem_map.1 hl
    exact isBulleted_entryLine e
  have f3 : List.filter isBulleted ["", totalLine es] = [] := by
    simp [List.filter_cons, isBulleted_blank, isBulleted_totalLine es]
  rw [f1, f2, f3, List.nil_append, List.append_nil]

theorem build_message_nonempty_lines_witness :
    strLines (build_message cW1 esW) =
      [headerStr cW1, networkLine cW1, ""] ++ esW.map entryLine ++ ["", totalLine esW] :=
  (build_message_nonempty_lines cW1 esW (by decide) (by decide) (by decide) (by decide)).1

/-- C5: for the empty record list the message is exactly the header line,
the network line and the literal "no data" sentence; none of its lines is
bulleted and none is a total line. -/
theorem build_message_empty_lines (c : Ctx)
    (hh : '\n' ∉ (headerStr c).data) (hnet : '\n' ∉ c.network.data) :
    strLines (build_message c []) = [headerStr c, networkLine c, noDataLine] ∧
    (∀ l ∈ strLines (build_message c []), isBulleted l = false ∧ isTotalLine l = false) := by
  have hmain : strLines (build_message c []) = [headerStr c, networkLine c, noDataLine] := by
    rw [build_message_empty_eq c]
    refine strLines_joinNL _ (by simp) ?_
    intro l hl
    rcases (by simpa using hl : l = headerStr c ∨ l = networkLine c ∨ l = noDataLine) with
      rfl | rfl | rfl
    · exact hh
    · exact networkLine_no_nl c hnet
    · decide
  refine ⟨hmain, ?_⟩
  rw [hmain]
  intro l hl
  rcases (by simpa using hl : l = headerStr c ∨ l = networkLine c ∨ l = noDataLine) with
    rfl | rfl | rfl
  · exact ⟨isBulleted_headerStr c, isTotalLine_headerStr c⟩
  · exact ⟨isBulleted_networkLine c, isTotalLine_networkLine c⟩
  · exact ⟨isBulleted_noDataLine, isTotalLine_noDataLine⟩

theorem build_message_empty_lines_witness :
    strLines (build_message cW7 []) = [headerStr cW7, networkLine cW7, noDataLine] :=
  (build_message_empty_lines cW7 (by decide) (by decide)).1

/-- C6: every record of a successful fetch carries the amount obtained
from its account's first data row by dividing the numeric income by 10^9. -/
theorem fetch_amount_from_income (c : Ctx) (api : String → Except String Payload)
    (res : List MinerEarning)
    (h : fetch_earnings c api = Except.ok res) :
    ∀ r ∈ res, ∃ p row rest q,
      api r.coldkey = Except.ok p ∧ p.data = row :: rest ∧
      row.income = some (IncomeVal.num q) ∧ r.amount_tao = q / 1000000000 := by
  intro r hr
  rcases fetchLoop_mem api c.minerAddresses [] res h r hr with h0 | ⟨ck, p, hm, ha, hp⟩
  · exact absurd h0 (List.not_mem_nil _)
  · obtain ⟨row, rest, q, hd, hrow, hrq⟩ := processAccount_inv p ck r hp
    have hckr : r.coldkey = ck := processAccount_coldkey p ck r hp
    refine ⟨p, row, rest, q, by rw [hckr]; exact ha, hd, hrow, by rw [hrq]⟩

theorem fetch_amount_from_income_witness :
    ∃ p row rest q, apiW "ck1" = Except.ok p ∧ p.data = row :: rest ∧
      row.income = some (IncomeVal.num q) ∧
      (⟨"ck1", 12345/10000⟩ : MinerEarning).amount_tao = q / 1000000000 :=
  fetch_amount_from_income cW1 apiW esW
    (by
      have h1 : apiW "ck1" = Except.ok ⟨[⟨some (IncomeVal.num 1234500000)⟩]⟩ := rfl
      have h2 : apiW "ck2" = Except.ok ⟨[⟨some (IncomeVal.num 567800000)⟩]⟩ := rfl
      show fetchLoop apiW [] ["ck1", "ck2"] = _
      simp only [fetchLoop, h1, h2, processAccount, esW]
      norm_num)
    ⟨"ck1", 12345/10000⟩ (by simp [esW])

/-- C7: the coldkeys of a successful fetch result form a subsequence of
the input account list — input order is preserved and skipped accounts
simply do not appear. -/
theorem fetch_preserves_order (c : Ctx) (api : String → Except String Payload)
    (res : List MinerEarning)
    (h : fetch_earnings c api = Except.ok res) :
    List.Sublist (res.map MinerEarning.coldkey) c.minerAddresses := by
  obtain ⟨tail, hres, hsub⟩ := fetchLoop_sublist api c.minerAddresses [] res h
  rw [hres, List.nil_append]
  exact hsub

theorem fetch_preserves_order_witness :
    List.Sublist (([⟨"ck2", 0⟩] : List MinerEarning).map MinerEarning.coldkey)
      cW1.minerAddresses :=
  fetch_preserves_order cW1 apiZeroW [⟨"ck2", 0⟩]
    (by
      have h1 : apiZeroW "ck1" = Except.ok ⟨[]⟩ := rfl
      have h2 : apiZeroW "ck2" = Except.ok ⟨[⟨some (IncomeVal.num 0)⟩]⟩ := rfl
      show fetchLoop apiZeroW [] ["ck1", "ck2"] = _
      simp only [fetchLoop, h1, h2, processAccount]
      norm_num)

/-- C8: `build_message` is a pure function of its configuration (which
fixes "now" through the date strings, the network tag and the lookback)
and its record list: identical inputs give byte-identical output. -/
theorem build_message_deterministic (c₁ c₂ : Ctx) (es₁ es₂ : List MinerEarning)
    (hc : c₁ = c₂) (hes : es₁ = es₂) :
    build_message c₁ es₁ = build_message c₂ es₂ := by
  rw [hc, hes]

theorem build_message_deterministic_witness :
    build_message cW1 esW = build_message cW1 esW :=
  build_message_deterministic cW1 cW1 esW esW rfl rfl

/-- C9: every message starts with the header line, and that header uses
single-day phrasing (naming only the end date) exactly when the lookback
window is one day, multi-day phrasing (start and end dates) otherwise. -/
theorem build_message_header (c : Ctx) (es : List MinerEarning) :
    (∃ rest, build_message c es = headerStr c ++ rest) ∧
    (c.lookbackDays = 1 →
      headerStr c = "📊 Daily TAO Earnings — " ++ c.dateEndStr) ∧
    (c.lookbackDays ≠ 1 →
      headerStr c = "📊 TAO Earnings — " ++ c.dateStartStr ++ " → " ++ c.dateEndStr) := by
  refine ⟨?_, fun h => by rw [headerStr, if_pos h], fun h => by rw [headerStr, if_neg h]⟩
  rcases es with _ | ⟨e, es⟩
  · refine ⟨"\nNetwork: **" ++ c.network ++
      "**\nNo earnings data available for the configured coldkeys in this period.", ?_⟩
    show headerStr c ++ "\nNetwork: **" ++ c.network ++
      "**\nNo earnings data available for the configured coldkeys in this period." = _
    simp [String.append_assoc]
  · rw [build_message_eq c (e :: es) (by simp)]
    rw [show ([headerStr c, networkLine c, ""] ++ (e :: es).map entryLine ++
        ["", totalLine (e :: es)])
      = headerStr c :: networkLine c :: ([""] ++ (e :: es).map entryLine ++
        ["", totalLine (e :: es)]) from by simp]
    exact ⟨"\n" ++ joinNL (networkLine c :: ([""] ++ (e :: es).map entryLine ++
      ["", totalLine (e :: es)])), by rw [joinNL, String.append_assoc]⟩

theorem build_message_header_witness :
    headerStr cW1 = "📊 Daily TAO Earnings — " ++ cW1.dateEndStr ∧
    headerStr cW7 = "📊 TAO Earnings — " ++ cW7.dateStartStr ++ " → " ++ cW7.dateEndStr :=
  ⟨(build_message_header cW1 []).2.1 rfl, (build_message_header cW7 []).2.2 (by decide)⟩

/-- C10: an account whose first data row carries a numeric income of zero
is reported with amount 0, not skipped. -/
theorem fetch_includes_zero_income (c : Ctx) (api : String → Except String Payload)
    (ck : String) (p : Payload) (row : ApiRow) (rest : List ApiRow)
    (res : List MinerEarning)
    (hmem : ck ∈ c.minerAddresses) (hok : api ck = Except.ok p)
    (hd : p.data = row :: rest) (hrow : row.income = some (IncomeVal.num 0))
    (h : fetch_earnings c api = Except.ok res) :
    (⟨ck, 0⟩ : MinerEarning) ∈ res := by
  obtain ⟨-, hfwd⟩ := fetchLoop_forward api c.minerAddresses [] res h
  have hpa := processAccount_of_num p ck row rest 0 hd hrow
  have hmem0 : (⟨ck, (0 : ℚ) / 1000000000⟩ : MinerEarning) ∈ processAccount p ck := by
    rw [hpa]
    exact List.mem_singleton.2 rfl
  have hres := hfwd ck hmem p hok _ hmem0
  simpa using hres

theorem fetch_includes_zero_income_witness :
    (⟨"ck2", 0⟩ : MinerEarning) ∈ ([⟨"ck2", 0⟩] : List MinerEarning) :=
  fetch_includes_zero_income cW1 apiZeroW "ck2" ⟨[⟨some (IncomeVal.num 0)⟩]⟩
    ⟨some (IncomeVal.num 0)⟩ [] [⟨"ck2", 0⟩] (by decide) rfl rfl rfl
    (by
      have h1 : apiZeroW "ck1" = Except.ok ⟨[]⟩ := rfl
      have h2 : apiZeroW "ck2" = Except.ok ⟨[⟨some (IncomeVal.num 0)⟩]⟩ := rfl
      show fetchLoop apiZeroW [] ["ck1", "ck2"] = _
      simp only [fetchLoop, h1, h2, processAccount]
      norm_num)

end DailyTao
